import Mathlib

/-!
# CymbalFlix rating-aggregate core: shallow embedding and verification

This file embeds the rating-aggregate core of the CymbalFlix repository:

* the rating-submission endpoint `POST /api/movies/:id/rate`
  (`server/routes/api.js`, lines 160-234), and
* the admin merge script `admin/merge_duplicates.js`,

over a list-based model of the four Firestore/Mongo collections the code
touches (`movies`, `ratings`, `tags`, `links`).  The companion search
script `admin/find_duplicates.js` is not embedded: it declares
`const movies` twice in one function scope, a JavaScript SyntaxError, so
that script has no run-time behavior to model.  JavaScript numbers are
modelled as exact rationals (`ℚ`); `Math.round` is modelled as
`⌊x + 1/2⌋` (round half toward +∞, which on the non-negative values
arising here coincides with round-half-away-from-zero).  Request fields
that fail JavaScript numeric parsing (`isNaN(parseInt(..))`,
`isNaN(parseFloat(..))`) arrive as `none`; a JS-falsy numeric `0` is
modelled explicitly where the code tests truthiness (`!userId`,
`!rating`).
-/

namespace Cymbalflix

/-- A document of the `movies` collection: identity key `movieId`,
descriptive attributes, and the derived aggregate pair
`(averageRating, ratingCount)`. -/
structure Movie where
  movieId : Nat
  title : String
  year : Int
  averageRating : ℚ
  ratingCount : Nat
deriving DecidableEq

/-- A document of the `ratings` collection.  `rid` models the Mongo `_id`
primary key; `movieId` is the entity-key binding that the merge engine
may rewrite. -/
structure RatingEvent where
  rid : Nat
  userId : Int
  movieId : Nat
  rating : ℚ
  timestamp : Nat
deriving DecidableEq

/-- A document of the `tags` collection (read by `GET /api/movies/:id`,
written only by the CSV importer). -/
structure TagDoc where
  movieId : Nat
  tag : String
deriving DecidableEq

/-- A document of the `links` collection (read by `GET /api/movies/:id`,
written only by the CSV importer). -/
structure LinkDoc where
  movieId : Nat
  imdbId : Nat
  tmdbId : Nat
deriving DecidableEq

/-- The document store: the four collections the embedded code touches. -/
structure Store where
  movies : List Movie
  ratings : List RatingEvent
  tags : List TagDoc
  links : List LinkDoc
deriving DecidableEq

/-- JavaScript `Math.round`: rounds half toward positive infinity. -/
def jsRound (q : ℚ) : ℤ := ⌊q + 1/2⌋

/-- Rounding to two decimal places as the submission endpoint does it:
`Math.round(x * 100) / 100` (api.js line 209). -/
def jsRound2 (q : ℚ) : ℚ := (jsRound (q * 100) : ℚ) / 100

/-- The aggregate computed inline at the submission call site
(api.js lines 208-209):
`totalRating = allRatings.reduce((sum, r) => sum + r.rating, 0)`;
`averageRating = Math.round((totalRating / allRatings.length) * 100) / 100`;
the stored count is `allRatings.length`.  Note `(0:ℚ)/0 = 0` in this
model where JavaScript would produce `NaN`; the division is only ever
reached with a non-empty list (see the C9 theorem). -/
def submissionAggregate (vals : List ℚ) : ℚ × Nat :=
  let totalRating := vals.foldl (· + ·) 0
  (jsRound2 (totalRating / vals.length), vals.length)

/-- The aggregate computed inline at the merge call site
(merge_duplicates.js lines 52-54):
`totalRating = allRatings.reduce((acc, r) => acc + r.rating, 0)`;
`ratingCount = allRatings.length`;
`averageRating = ratingCount > 0 ? totalRating / ratingCount : 0`.
No rounding is applied here. -/
def mergeAggregate (vals : List ℚ) : ℚ × Nat :=
  let totalRating := vals.foldl (· + ·) 0
  let ratingCount := vals.length
  (if ratingCount > 0 then totalRating / ratingCount else 0, ratingCount)

/-- Modelled from the spec: §4.1 `computeAggregate`, which is absent from
`src` as a shared function (each call site inlines its own computation).
Arithmetic mean of all values, rounded to two decimal places using
round-half-away-from-zero (the policy Scenario A asserts: 4.125 ↦ 4.13),
and `(0, 0)` on the empty list. -/
def roundHalfAwayFromZero2 (q : ℚ) : ℚ :=
  if 0 ≤ q then ((⌊q * 100 + 1/2⌋ : ℤ) : ℚ) / 100
  else -(((⌊-q * 100 + 1/2⌋ : ℤ) : ℚ) / 100)

/-- Modelled from the spec: §4.1 `computeAggregate` (see
`roundHalfAwayFromZero2`). -/
def computeAggregate (vals : List ℚ) : ℚ × Nat :=
  if vals.length = 0 then (0, 0)
  else (roundHalfAwayFromZero2 (vals.sum / vals.length), vals.length)

/-- Rating events currently bound to the identity key `mid`. -/
def ratingsOf (s : Store) (mid : Nat) : List RatingEvent :=
  s.ratings.filter (fun r => r.movieId == mid)

/-- The rating values currently bound to the identity key `mid`. -/
def ratingValuesOf (s : Store) (mid : Nat) : List ℚ :=
  (ratingsOf s mid).map (·.rating)

/-- Mongo `updateOne`: apply `f` to the first document matching `p`,
leaving every other document untouched. -/
def updateFirstMovie (p : Movie → Bool) (f : Movie → Movie) :
    List Movie → List Movie
  | [] => []
  | m :: ms => if p m then f m :: ms else m :: updateFirstMovie p f ms

/-- Outcome of `POST /api/movies/:id/rate`, mirroring the route's early
returns: the 400 responses (the spec's `InvalidInput`), the 404 response
(`NotFound`), and the 201 success payload. -/
inductive SubmitOutcome where
  | invalidMovieId
  | invalidUserId
  | invalidRating
  | ratingOutOfRange
  | notFound
  | ok (averageRating : ℚ) (ratingCount : Nat)
deriving DecidableEq

/-- `true` exactly on the 201 success outcome. -/
def SubmitOutcome.isOk : SubmitOutcome → Bool
  | .ok _ _ => true
  | _ => false

/-- `true` exactly on the 400 validation outcomes — the spec's
`InvalidInput` class (`notFound` is the 404, `ok` the 201). -/
def SubmitOutcome.isInvalidInput : SubmitOutcome → Bool
  | .invalidMovieId => true
  | .invalidUserId => true
  | .invalidRating => true
  | .ratingOutOfRange => true
  | _ => false

/-- `POST /api/movies/:id/rate` (api.js lines 160-234).

* `movieId?`/`userId?`/`rating?` are the request fields after JavaScript
  numeric parsing (`none` models `NaN`); a numeric `0` for `userId` or
  `rating` is rejected by the code's truthiness tests `!userId`/`!rating`.
* `newRid` models the Mongo `_id` assigned by `insertOne`; `ts` the unix
  timestamp.
* On success the route inserts the event, reads back every rating bound
  to the movie, computes `submissionAggregate`, and writes it onto the
  first movie document matching the id (`updateOne`).
* Every failure path returns before any write, so the store is returned
  unchanged there. -/
def submitRating (s : Store) (newRid ts : Nat) (movieId? : Option Nat)
    (userId? : Option Int) (rating? : Option ℚ) : Store × SubmitOutcome :=
  match movieId? with
  | none => (s, .invalidMovieId)
  | some movieId =>
    match userId? with
    | none => (s, .invalidUserId)
    | some userId =>
      if userId = 0 then (s, .invalidUserId)
      else
        match rating? with
        | none => (s, .invalidRating)
        | some ratingValue =>
          if ratingValue = 0 then (s, .invalidRating)
          else if ratingValue < 1/2 ∨ ratingValue > 5 then
            (s, .ratingOutOfRange)
          else
            match s.movies.find? (fun m => m.movieId == movieId) with
            | none => (s, .notFound)
            | some _ =>
              let newRating : RatingEvent :=
                { rid := newRid, userId := userId, movieId := movieId,
                  rating := ratingValue, timestamp := ts }
              let ratings1 := s.ratings ++ [newRating]
              let allRatings :=
                ratings1.filter (fun r => r.movieId == movieId)
              let agg := submissionAggregate (allRatings.map (·.rating))
              let movies1 := updateFirstMovie
                (fun m => m.movieId == movieId)
                (fun m =>
                  { m with averageRating := agg.1, ratingCount := agg.2 })
                s.movies
              ({ s with movies := movies1, ratings := ratings1 },
               .ok agg.1 agg.2)

/-- The natural-key search string the merge script builds:
``searchTitle = `${title} (${year})` ``. -/
def searchTitle (title : String) (year : Int) : String :=
  title ++ " (" ++ toString year ++ ")"

/-- The natural-key lookup of merge_duplicates.js line 16:
`find({ title: searchTitle, year: parseInt(year) })` — it matches on the
embedded-year title string AND on the `year` field. -/
def mergeMatches (s : Store) (title : String) (year : Int) : List Movie :=
  s.movies.filter
    (fun m => m.title == searchTitle title year && m.year == year)

/-- Result of the merge script: either no duplicates were found (fewer
than 2 matches — the spec's `NoOp`) or the group was merged
(`Merged(survivorId, movedCount, finalAggregate)`). -/
inductive MergeResult where
  | NoOp
  | Merged (survivorId moved : Nat) (averageRating : ℚ) (ratingCount : Nat)
deriving DecidableEq

/-- Step 4 of the merge (merge_duplicates.js lines 39-47): the bulkWrite
that rewrites the `movieId` binding of every rating event bound to a
duplicate onto the survivor.  One `updateOne` per `_id` of
`ratingsToMove`; since `ratingsToMove` is exactly the sublist with
`movieId ∈ duplicateMovieIds`, this is the pointwise rewrite below. -/
def reassignRatings (ratings : List RatingEvent) (dupIds : List Nat)
    (survivorId : Nat) : List RatingEvent :=
  ratings.map (fun r =>
    if decide (r.movieId ∈ dupIds) then { r with movieId := survivorId }
    else r)

/-- The located duplicate group of merge_duplicates.js line 16:
`find({title: searchTitle, year}).sort({movieId: 1})` — the matches in
ascending `movieId` order, so the head (lowest identity key) is the
survivor. -/
def mergeGroup (s : Store) (title : String) (year : Int) : List Movie :=
  (mergeMatches s title year).insertionSort (fun a b => a.movieId ≤ b.movieId)

/-- `mergeDuplicates(title, year)` (merge_duplicates.js lines 3-76),
modelled past the CLI argument guard:

1. locate all movies with `{title: searchTitle, year}`, sorted by
   `movieId` ascending; fewer than 2 ⇒ `NoOp`, no write;
2. survivor = first match, the rest are duplicates;
3. find the ratings bound to the duplicates and, if any, rewrite their
   `movieId` to the survivor's (bulkWrite, skipped when there is nothing
   to move);
4. recompute the survivor's aggregate from every rating now bound to it
   (`mergeAggregate` — the unrounded mean) and `updateOne` it onto the
   first movie document with the survivor's id;
5. `deleteMany` every movie whose id is a duplicate id. -/
def mergeDuplicates (s : Store) (title : String) (year : Int) :
    Store × MergeResult :=
  match mergeGroup s title year with
  | primaryMovie :: d1 :: drest =>
    let duplicateMovieIds := (d1 :: drest).map (·.movieId)
    let ratingsToMove :=
      s.ratings.filter (fun r => decide (r.movieId ∈ duplicateMovieIds))
    let ratings1 :=
      if ratingsToMove.isEmpty then s.ratings
      else reassignRatings s.ratings duplicateMovieIds primaryMovie.movieId
    let allRatings :=
      ratings1.filter (fun r => r.movieId == primaryMovie.movieId)
    let agg := mergeAggregate (allRatings.map (·.rating))
    let movies1 := updateFirstMovie
      (fun m => m.movieId == primaryMovie.movieId)
      (fun m => { m with averageRating := agg.1, ratingCount := agg.2 })
      s.movies
    let movies2 :=
      movies1.filter (fun m => ! decide (m.movieId ∈ duplicateMovieIds))
    ({ s with movies := movies2, ratings := ratings1 },
     .Merged primaryMovie.movieId ratingsToMove.length agg.1 agg.2)
  | _ => (s, .NoOp)

/-- The store as left behind when the transaction body of
merge_duplicates.js is forced to fail after step 4 (the bulkWrite has
completed) but before commit.  The `find`/`bulkWrite`/`updateOne`/
`deleteMany` calls inside the `withTransaction` callback never pass the
`session`, so they execute outside the transaction; aborting the session
therefore rolls back none of them, and the reassignment issued by the
bulkWrite persists while the `catch` swallows the error. -/
def mergeAbortAfterReassign (s : Store) (title : String) (year : Int) :
    Store :=
  match mergeGroup s title year with
  | primaryMovie :: d1 :: drest =>
    let duplicateMovieIds := (d1 :: drest).map (·.movieId)
    let ratingsToMove :=
      s.ratings.filter (fun r => decide (r.movieId ∈ duplicateMovieIds))
    if ratingsToMove.isEmpty then s
    else
      { s with ratings :=
          reassignRatings s.ratings duplicateMovieIds primaryMovie.movieId }
  | _ => s

/-- Scenario B store: `E1` (id=10, ratings `[5.0]`) and `E2` (id=11,
ratings `[3.0, 3.0]`) share the natural key "Alpha (1999)"; a tag
document references the duplicate id 11. -/
def scB : Store :=
  { movies :=
      [ { movieId := 10, title := "Alpha (1999)", year := 1999,
          averageRating := 5, ratingCount := 1 },
        { movieId := 11, title := "Alpha (1999)", year := 1999,
          averageRating := 3, ratingCount := 2 } ],
    ratings :=
      [ { rid := 1, userId := 1, movieId := 10, rating := 5, timestamp := 0 },
        { rid := 2, userId := 2, movieId := 11, rating := 3, timestamp := 0 },
        { rid := 3, userId := 3, movieId := 11, rating := 3, timestamp := 0 } ],
    tags := [ { movieId := 11, tag := "classic" } ],
    links := [] }

/-- Scenario A store: entity `E1` (id=1) with ratings `[4.0, 5.0, 3.0]`
and a consistent stored aggregate. -/
def sc8 : Store :=
  { movies :=
      [ { movieId := 1, title := "E1 (2000)", year := 2000,
          averageRating := 4, ratingCount := 3 } ],
    ratings :=
      [ { rid := 1, userId := 1, movieId := 1, rating := 4, timestamp := 0 },
        { rid := 2, userId := 2, movieId := 1, rating := 5, timestamp := 0 },
        { rid := 3, userId := 3, movieId := 1, rating := 3, timestamp := 0 } ],
    tags := [], links := [] }

/-- A minimal store with one existing entity (id=1) and no rating
events, for exercising the validation of the submission endpoint. -/
def sc3 : Store :=
  { movies :=
      [ { movieId := 1, title := "M (2000)", year := 2000,
          averageRating := 0, ratingCount := 0 } ],
    ratings := [], tags := [], links := [] }

/-- One request to the rating-submission endpoint: the Mongo `_id` the
insert will allocate, the unix timestamp, and the parsed body fields. -/
structure Call where
  newRid : Nat
  ts : Nat
  userId : Option Int
  rating : Option ℚ
deriving DecidableEq

/-- Run a sequence of submission requests against the entity `mid`, in
order (no concurrent interleaving). -/
def runSubmits (mid : Nat) : Store → List Call → Store
  | s, [] => s
  | s, c :: cs =>
    runSubmits mid (submitRating s c.newRid c.ts (some mid) c.userId c.rating).1 cs

/-- Every request in the sequence (as executed in order) succeeds. -/
def allOk (mid : Nat) : Store → List Call → Prop
  | _, [] => True
  | s, c :: cs =>
    (submitRating s c.newRid c.ts (some mid) c.userId c.rating).2.isOk = true ∧
      allOk mid (submitRating s c.newRid c.ts (some mid) c.userId c.rating).1 cs

/-- Invariant I1 of the spec's data model for entity key `mid`: every
movie document carrying that identity key stores exactly the aggregate
computed (per the spec's `computeAggregate`) over the rating events
currently bound to the key. -/
def I1 (s : Store) (mid : Nat) : Prop :=
  ∀ m ∈ s.movies, m.movieId = mid →
    m.averageRating = (computeAggregate (ratingValuesOf s mid)).1 ∧
      m.ratingCount = (computeAggregate (ratingValuesOf s mid)).2

/-- The single-submission call sequence of Scenario A. -/
def c4calls : List Call :=
  [ { newRid := 4, ts := 100, userId := some 9, rating := some (9/2) } ]

/-- C1: the claim asserts that the (average, count) aggregate computation is
identical at its two call sites.  It is not: on the rating multiset
`[5, 3, 3]` the submission call site stores the rounded mean `3.67` while
the merge call site stores the unrounded mean `11/3`, so the two computed
pairs differ. -/
theorem c1_call_sites_disagree :
    submissionAggregate [5, 3, 3] ≠ mergeAggregate [5, 3, 3] := by
  have hfloor : (⌊(11 : ℚ) / 3 * 100 + 1/2⌋ : ℤ) = 367 := by
    rw [Int.floor_eq_iff]
    constructor <;> norm_num
  have h1 : (submissionAggregate [5, 3, 3]).1 = 367/100 := by
    simp only [submissionAggregate, jsRound2, jsRound, List.foldl_cons,
      List.foldl_nil, List.length_cons, List.length_nil]
    norm_num [hfloor]
  have h2 : (mergeAggregate [5, 3, 3]).1 = 11/3 := by
    simp only [mergeAggregate, List.foldl_cons, List.foldl_nil,
      List.length_cons, List.length_nil]
    norm_num
  intro h
  rw [h, h2] at h1
  norm_num at h1


/-- The two rounding policies coincide on non-negative means, so on
lists of non-negative values the submission call site's aggregate is
exactly the spec's `computeAggregate`. -/
theorem submissionAggregate_eq_computeAggregate (vals : List ℚ)
    (h : ∀ v ∈ vals, 0 ≤ v) :
    submissionAggregate vals = computeAggregate vals := by
  rcases vals with _ | ⟨v, vs⟩
  · simp only [submissionAggregate, computeAggregate, jsRound2, jsRound,
      List.foldl_nil, List.length_nil]
    norm_num
  · have hlen : ((v :: vs).length : ℚ) ≠ 0 := by
      simp [List.length_cons]
      positivity
    have hsum : 0 ≤ (v :: vs).sum := List.sum_nonneg h
    have hq : 0 ≤ (v :: vs).sum / ((v :: vs).length : ℚ) :=
      div_nonneg hsum (by positivity)
    simp only [submissionAggregate, computeAggregate, jsRound2, jsRound,
      roundHalfAwayFromZero2, List.length_cons, Nat.succ_ne_zero, if_false,
      ← List.sum_eq_foldl]
    rw [if_pos (by simpa using hq)]

/-- `updateOne` on the movies collection does not change any identity
key. -/
theorem updateFirstMovie_map_movieId (p : Movie → Bool) (f : Movie → Movie)
    (hf : ∀ m, (f m).movieId = m.movieId) (l : List Movie) :
    (updateFirstMovie p f l).map (·.movieId) = l.map (·.movieId) := by
  induction l with
  | nil => rfl
  | cons m ms ih =>
    by_cases hp : p m
    · simp [updateFirstMovie, hp, hf]
    · simp [updateFirstMovie, hp, ih]

/-- `updateOne` preserves the count of any predicate invariant under the
update. -/
theorem updateFirstMovie_countP (p q : Movie → Bool) (f : Movie → Movie)
    (hf : ∀ m, q (f m) = q m) (l : List Movie) :
    (updateFirstMovie p f l).countP q = l.countP q := by
  induction l with
  | nil => rfl
  | cons m ms ih =>
    by_cases hp : p m
    · simp [updateFirstMovie, hp, List.countP_cons, hf]
    · simp [updateFirstMovie, hp, List.countP_cons, ih]

/-- When the identity keys are pairwise distinct, every document of the
updated collection that carries the targeted key carries the written
aggregate. -/
theorem updateFirstMovie_mem_spec (mid : Nat) (A : ℚ) (C : Nat)
    (l : List Movie) (hnd : (l.map (·.movieId)).Nodup) (m' : Movie)
    (hm' : m' ∈ updateFirstMovie (fun m => m.movieId == mid)
      (fun m => { m with averageRating := A, ratingCount := C }) l)
    (hmid : m'.movieId = mid) :
    m'.averageRating = A ∧ m'.ratingCount = C := by
  induction l with
  | nil => simp [updateFirstMovie] at hm'
  | cons m ms ih =>
    rw [List.map_cons, List.nodup_cons] at hnd
    by_cases hp : (m.movieId == mid) = true
    · rw [updateFirstMovie, if_pos hp] at hm'
      rcases List.mem_cons.mp hm' with h | h
      · subst h
        exact ⟨rfl, rfl⟩
      · exfalso
        apply hnd.1
        have hmem : m'.movieId ∈ ms.map (·.movieId) :=
          List.mem_map_of_mem (·.movieId) h
        rwa [hmid, ← eq_of_beq hp] at hmem
    · rw [updateFirstMovie, if_neg hp] at hm'
      rcases List.mem_cons.mp hm' with h | h
      · subst h
        exact absurd (beq_iff_eq.mpr hmid) hp
      · exact ih hnd.2 h

/-- Summing a membership indicator over a duplicate-free key list counts
membership once. -/
theorem sum_map_indicator_eq (ids : List Nat) (hnd : ids.Nodup) (x : Nat) :
    (ids.map (fun i => if x == i then 1 else 0)).sum
      = (if decide (x ∈ ids) then 1 else 0 : Nat) := by
  induction ids with
  | nil => simp
  | cons i is ih =>
    rw [List.nodup_cons] at hnd
    by_cases hx : x = i
    · subst hx
      rw [List.map_cons, List.sum_cons, ih hnd.2]
      simp [hnd.1]
    · rw [List.map_cons, List.sum_cons, ih hnd.2]
      simp [List.mem_cons, hx]

/-- The number of rating events bound to any key of a duplicate-free key
list is the sum over the keys of the per-key counts. -/
theorem countP_mem_eq_sum_counts (ids : List Nat) (hnd : ids.Nodup)
    (l : List RatingEvent) :
    l.countP (fun r => decide (r.movieId ∈ ids)) =
      (ids.map (fun i => l.countP (fun r => r.movieId == i))).sum := by
  induction l with
  | nil => simp
  | cons r rs ih =>
    rw [List.countP_cons]
    have hmap : ids.map (fun i => (r :: rs).countP (fun e => e.movieId == i))
        = ids.map (fun i =>
            rs.countP (fun e => e.movieId == i) + if r.movieId == i then 1 else 0) := by
      apply List.map_congr_left
      intro i _
      rw [List.countP_cons]
    rw [hmap, List.sum_map_add, ← ih, sum_map_indicator_eq ids hnd]

/-- The bulkWrite of step 4 is skipped when there is nothing to move, and
in that case it coincides with the unconditional pointwise rewrite. -/
theorem reassign_if_collapse (ratings : List RatingEvent) (dupIds : List Nat)
    (sid : Nat) :
    (if (ratings.filter (fun r => decide (r.movieId ∈ dupIds))).isEmpty
        then ratings else reassignRatings ratings dupIds sid)
      = reassignRatings ratings dupIds sid := by
  split
  · next hemp =>
    rw [List.isEmpty_iff, List.filter_eq_nil_iff] at hemp
    rw [reassignRatings]
    have hid : ∀ r ∈ ratings,
        (if decide (r.movieId ∈ dupIds) then { r with movieId := sid } else r) = r :=
      fun r hr => if_neg (by simpa using hemp r hr)
    rw [List.map_congr_left hid]
    simp
  · rfl

/-- The located group is a permutation of the raw title+year matches. -/
theorem mergeGroup_perm (s : Store) (title : String) (year : Int) :
    List.Perm (mergeGroup s title year) (mergeMatches s title year) :=
  List.perm_insertionSort _ _

/-- When the store's identity keys are pairwise distinct, so are those of
the located group. -/
theorem mergeGroup_movieId_nodup (s : Store) (title : String) (year : Int)
    (hnd : (s.movies.map (·.movieId)).Nodup) :
    ((mergeGroup s title year).map (·.movieId)).Nodup := by
  have hsub : List.Sublist ((mergeMatches s title year).map (·.movieId))
      (s.movies.map (·.movieId)) := by
    simp only [mergeMatches]
    exact (List.filter_sublist _).map _
  exact (((mergeGroup_perm s title year).map _).nodup_iff).mpr (hnd.sublist hsub)

/-- After reassignment, a rating event is bound to the survivor exactly
when it was bound to a group member (survivor or duplicate). -/
theorem reassign_movieId_beq (dupIds : List Nat) (sid : Nat)
    (_hs : sid ∉ dupIds) (r : RatingEvent) :
    (((if decide (r.movieId ∈ dupIds)
        then { r with movieId := sid } else r) : RatingEvent).movieId == sid)
      = decide (r.movieId ∈ sid :: dupIds) := by
  by_cases h : r.movieId ∈ dupIds
  · simp [h]
  · rw [if_neg (by simpa using h)]
    rw [Bool.eq_iff_iff]
    simp [List.mem_cons, h]

/-- The survivor's post-reassignment rating set, as a list. -/
theorem reassign_filter_survivor (ratings : List RatingEvent)
    (dupIds : List Nat) (sid : Nat) (hs : sid ∉ dupIds) :
    (reassignRatings ratings dupIds sid).filter (fun r => r.movieId == sid)
      = (ratings.filter (fun r => decide (r.movieId ∈ sid :: dupIds))).map
          (fun r => if decide (r.movieId ∈ dupIds)
            then { r with movieId := sid } else r) := by
  rw [reassignRatings, List.filter_map]
  congr 1
  apply List.filter_congr
  intro r _
  exact reassign_movieId_beq dupIds sid hs r

/-- The survivor's post-reassignment rating values are exactly the values
of the events originally bound to the group. -/
theorem reassign_filter_survivor_values (ratings : List RatingEvent)
    (dupIds : List Nat) (sid : Nat) (hs : sid ∉ dupIds) :
    ((reassignRatings ratings dupIds sid).filter
        (fun r => r.movieId == sid)).map (·.rating)
      = (ratings.filter (fun r => decide (r.movieId ∈ sid :: dupIds))).map
          (·.rating) := by
  rw [reassign_filter_survivor ratings dupIds sid hs, List.map_map]
  apply List.map_congr_left
  intro r _
  by_cases h : r.movieId ∈ dupIds <;> simp [h]

/-- C2 (amended): when `mergeDuplicates` merges a duplicate group and the
store's identity keys are pairwise distinct, the survivor owns exactly
`N1+...+Nk` rating events (the sum over the group members of their event
counts), no rating event is lost or duplicated (the `_id` sequence of the
ratings collection is unchanged), no rating event outside the group is
rebound, and the survivor's stored aggregate equals the merge call site's
own aggregate (`mergeAggregate`, the unrounded mean — not the spec's
rounded `computeAggregate`, see the counterexample) over the union of the
group's events. -/
theorem c2_merge_conservation (s : Store) (title : String) (year : Int)
    (survId moved cnt : Nat) (avg : ℚ)
    (hnd : (s.movies.map (·.movieId)).Nodup)
    (hres : (mergeDuplicates s title year).2 = .Merged survId moved avg cnt) :
    (((mergeDuplicates s title year).1.ratings.filter
        (fun r => r.movieId == survId)).length
      = ((mergeGroup s title year).map
          (fun m => (s.ratings.filter
            (fun r => r.movieId == m.movieId)).length)).sum)
    ∧ (mergeDuplicates s title year).1.ratings.map (·.rid)
        = s.ratings.map (·.rid)
    ∧ (∀ r ∈ s.ratings,
        r.movieId ∉ (mergeGroup s title year).map (·.movieId) →
          r ∈ (mergeDuplicates s title year).1.ratings)
    ∧ (∀ m ∈ (mergeDuplicates s title year).1.movies, m.movieId = survId →
        m.averageRating = (mergeAggregate ((s.ratings.filter
            (fun r => decide (r.movieId ∈
              (mergeGroup s title year).map (·.movieId)))).map (·.rating))).1
        ∧ m.ratingCount = (mergeAggregate ((s.ratings.filter
            (fun r => decide (r.movieId ∈
              (mergeGroup s title year).map (·.movieId)))).map (·.rating))).2) := by
  have hGnd := mergeGroup_movieId_nodup s title year hnd
  rcases hG : mergeGroup s title year with _ | ⟨p, _ | ⟨d, ds⟩⟩
  · rw [mergeDuplicates, hG] at hres
    exact absurd hres (by simp)
  · rw [mergeDuplicates, hG] at hres
    exact absurd hres (by simp)
  · rw [hG, List.map_cons, List.nodup_cons] at hGnd
    obtain ⟨hpnotin, hdnd⟩ := hGnd
    have hresult := hres
    rw [mergeDuplicates, hG] at hresult
    simp only [MergeResult.Merged.injEq] at hresult
    obtain ⟨hsid, -, -, -⟩ := hresult
    subst hsid
    simp only [mergeDuplicates, hG, List.map_cons]
    rw [reassign_if_collapse]
    rw [List.map_cons] at hpnotin hdnd
    refine ⟨?_, ?_, ?_, ?_⟩
    · rw [reassign_filter_survivor _ _ _ hpnotin, List.length_map,
        ← List.countP_eq_length_filter,
        countP_mem_eq_sum_counts _ (List.nodup_cons.mpr ⟨hpnotin, hdnd⟩)]
      simp only [List.map_cons, List.sum_cons, List.countP_eq_length_filter,
        List.map_map]
      rfl
    · rw [reassignRatings, List.map_map]
      apply List.map_congr_left
      intro r _
      simp only [Function.comp_apply]
      split <;> rfl
    · intro r hr hnot
      rw [reassignRatings]
      refine List.mem_map.mpr ⟨r, hr, ?_⟩
      rw [if_neg]
      simp only [decide_eq_true_eq]
      intro hmem
      exact hnot (List.mem_cons.mpr (Or.inr hmem))
    · intro m hm hmid
      have hm1 := (List.mem_filter.mp hm).1
      have hspec := updateFirstMovie_mem_spec p.movieId _ _ s.movies hnd m hm1 hmid
      have hvals := reassign_filter_survivor_values s.ratings
        (d.movieId :: List.map (fun x => x.movieId) ds) p.movieId hpnotin
      rw [hvals] at hspec
      exact hspec

/-- C2 counterexample: at Scenario B the merge leaves the survivor's
stored average at the unrounded mean `11/3`, while `computeAggregate`
over the union `[5, 3, 3]` of the group's rating values yields the
rounded `3.67`; the claim's "stored aggregate equals `computeAggregate`
applied to the union" is false on this input. -/
theorem c2_counterexample :
    ((mergeDuplicates scB "Alpha" 1999).1.movies.map
        (fun m => (m.movieId, m.averageRating, m.ratingCount)))
      = [(10, 11/3, 3)]
    ∧ computeAggregate [5, 3, 3] = (367/100, 3)
    ∧ ((11 : ℚ)/3) ≠ 367/100 := by
  refine ⟨?_, ?_, by norm_num⟩
  · norm_num [mergeDuplicates, mergeGroup, mergeMatches, searchTitle, scB,
      List.insertionSort, List.orderedInsert, reassignRatings, mergeAggregate,
      updateFirstMovie]
  · norm_num [computeAggregate, roundHalfAwayFromZero2]

/-- Witness for `c2_merge_conservation` at Scenario B: the hypotheses
hold there and the survivor (id 10) ends up owning 1 + 2 = 3 rating
events. -/
theorem c2_merge_conservation_witness :
    ((scB.movies.map (·.movieId)).Nodup
      ∧ (mergeDuplicates scB "Alpha" 1999).2 = .Merged 10 2 (11/3) 3)
    ∧ (((mergeDuplicates scB "Alpha" 1999).1.ratings.filter
        (fun r => r.movieId == 10)).length
      = ((mergeGroup scB "Alpha" 1999).map
          (fun m => (scB.ratings.filter
            (fun r => r.movieId == m.movieId)).length)).sum) := by
  have hnd : (scB.movies.map (·.movieId)).Nodup := by decide
  have hres : (mergeDuplicates scB "Alpha" 1999).2 = .Merged 10 2 (11/3) 3 := by
    norm_num [mergeDuplicates, mergeGroup, mergeMatches, searchTitle, scB,
      List.insertionSort, List.orderedInsert, reassignRatings, mergeAggregate,
      updateFirstMovie]
  exact ⟨⟨hnd, hres⟩,
    (c2_merge_conservation scB "Alpha" 1999 10 2 3 (11/3) hnd hres).1⟩

/-- C5: the spec demands that a merge transaction forced to fail after
step 4 (reassignment) but before commit leave the store bit-for-bit as
before the call.  The code violates this: none of the
`find`/`bulkWrite`/`updateOne`/`deleteMany` calls inside the
`withTransaction` callback passes the `session`, so they run outside the
transaction and the abort rolls nothing back.  On the Scenario B store
an abort induced after step 4 leaves `E2`'s two rating events already
rebound to the survivor id 10. -/
theorem c5_abort_leaves_reassignment :
    (mergeAbortAfterReassign scB "Alpha" 1999).ratings.map (·.movieId)
        = [10, 10, 10]
    ∧ scB.ratings.map (·.movieId) = [10, 11, 11]
    ∧ mergeAbortAfterReassign scB "Alpha" 1999 ≠ scB := by
  have h1 : (mergeAbortAfterReassign scB "Alpha" 1999).ratings.map (·.movieId)
      = [10, 10, 10] := by decide
  have h2 : scB.ratings.map (·.movieId) = [10, 11, 11] := by decide
  refine ⟨h1, h2, fun h => ?_⟩
  rw [h, h2] at h1
  exact absurd h1 (by decide)

/-- C10: a merge (successful or not) writes only the `movies` and
`ratings` collections; the `tags` and `links` collections are returned
untouched, so a tag or link document referencing a deleted duplicate's
identity key still references that now-dangling key afterwards. -/
theorem c10_merge_frame (s : Store) (title : String) (year : Int) :
    (mergeDuplicates s title year).1.tags = s.tags
      ∧ (mergeDuplicates s title year).1.links = s.links := by
  rw [mergeDuplicates]
  split <;> simp

/-- Writing an aggregate onto a movie document preserves the count of
any predicate that only inspects key fields. -/
theorem updateFirstMovie_countP_agg (p : Movie → Bool) (A : ℚ) (C : Nat)
    (q : Movie → Bool)
    (hq : ∀ m, q { m with averageRating := A, ratingCount := C } = q m)
    (l : List Movie) :
    (updateFirstMovie p
        (fun m => { m with averageRating := A, ratingCount := C }) l).countP q
      = l.countP q :=
  updateFirstMovie_countP p q _ hq l

/-- After a successful merge, at most one movie matching the natural key
survives (every non-survivor match was deleted, and updating the
survivor's aggregate changes no key field). -/
theorem mergeMatches_after_merge_le_one (s : Store) (title : String)
    (year : Int) (p d : Movie) (ds : List Movie)
    (hG : mergeGroup s title year = p :: d :: ds) :
    (mergeMatches (mergeDuplicates s title year).1 title year).length ≤ 1 := by
  rw [mergeDuplicates, hG]
  simp only [mergeMatches]
  rw [← List.countP_eq_length_filter, List.countP_filter,
    updateFirstMovie_countP_agg _ _ _ _ (fun m => rfl)]
  have hcomm : s.movies.countP
      (fun a => (a.title == searchTitle title year && a.year == year) &&
        ! decide (a.movieId ∈ (d :: ds).map (·.movieId)))
      = s.movies.countP
        (fun a => (! decide (a.movieId ∈ (d :: ds).map (·.movieId))) &&
          (a.title == searchTitle title year && a.year == year)) :=
    List.countP_congr (by
      intro x _
      simp [Bool.and_comm])
  rw [hcomm, ← List.countP_filter]
  have hmm : (s.movies.filter
      (fun m => m.title == searchTitle title year && m.year == year))
      = mergeMatches s title year := rfl
  rw [hmm, ← (mergeGroup_perm s title year).countP_eq, hG, List.countP_cons]
  have hzero : (d :: ds).countP
      (fun a => ! decide (a.movieId ∈ (d :: ds).map (·.movieId))) = 0 := by
    rw [List.countP_eq_zero]
    intro a ha
    have hmem : a.movieId ∈ (d :: ds).map (·.movieId) :=
      List.mem_map_of_mem (·.movieId) ha
    intro hcon
    rw [Bool.not_eq_true', decide_eq_false_iff_not] at hcon
    exact hcon hmem
  rw [hzero]
  split <;> simp

/-- C6: for a natural key on which a first `mergeDuplicates` call
returned `Merged`, a second call on the same key returns `NoOp` and
returns the post-merge store unchanged (the `NoOp` path performs no
write). -/
theorem c6_merge_idempotent (s : Store) (title : String) (year : Int)
    (survId moved cnt : Nat) (avg : ℚ)
    (hres : (mergeDuplicates s title year).2 = .Merged survId moved avg cnt) :
    mergeDuplicates (mergeDuplicates s title year).1 title year
      = ((mergeDuplicates s title year).1, .NoOp) := by
  rcases hG : mergeGroup s title year with _ | ⟨p, _ | ⟨d, ds⟩⟩
  · rw [mergeDuplicates, hG] at hres
    exact absurd hres (by simp)
  · rw [mergeDuplicates, hG] at hres
    exact absurd hres (by simp)
  · have hlen : (mergeGroup (mergeDuplicates s title year).1 title year).length ≤ 1 := by
      rw [(mergeGroup_perm _ _ _).length_eq]
      exact mergeMatches_after_merge_le_one s title year p d ds hG
    rcases hG2 : mergeGroup (mergeDuplicates s title year).1 title year
        with _ | ⟨x, _ | ⟨y, l⟩⟩
    · rw [mergeDuplicates, hG2]
    · rw [mergeDuplicates, hG2]
    · rw [hG2] at hlen
      simp at hlen

/-- Witness for `c6_merge_idempotent` at Scenario B: the first call
merges, the second is a `NoOp` leaving the store untouched. -/
theorem c6_merge_idempotent_witness :
    (mergeDuplicates scB "Alpha" 1999).2 = .Merged 10 2 (11/3) 3
    ∧ mergeDuplicates (mergeDuplicates scB "Alpha" 1999).1 "Alpha" 1999
        = ((mergeDuplicates scB "Alpha" 1999).1, .NoOp) := by
  have hres : (mergeDuplicates scB "Alpha" 1999).2 = .Merged 10 2 (11/3) 3 := by
    norm_num [mergeDuplicates, mergeGroup, mergeMatches, searchTitle, scB,
      List.insertionSort, List.orderedInsert, reassignRatings, mergeAggregate,
      updateFirstMovie]
  exact ⟨hres, c6_merge_idempotent scB "Alpha" 1999 10 2 3 (11/3) hres⟩

/-- C3 counterexample: the claim asserts that a submission with a
non-positive rater id or a value off the 0.5 increment fails with
`InvalidInput` and writes nothing.  The code accepts
`userId = -5, rating = 3.7` against an existing movie: the call succeeds
(201) and a rating event is written. -/
theorem c3_counterexample :
    (submitRating sc3 2 0 (some 1) (some (-5)) (some (37/10))).2
        = .ok (37/10) 1
    ∧ (submitRating sc3 2 0 (some 1) (some (-5)) (some (37/10))).1.ratings.length
        = sc3.ratings.length + 1 := by
  constructor
  · norm_num [submitRating, sc3, submissionAggregate, jsRound2, jsRound,
      updateFirstMovie]
  · norm_num [submitRating, sc3, submissionAggregate, jsRound2, jsRound,
      updateFirstMovie]

/-- C3 (amended): against an existing entity, the endpoint fails — with
one of the `InvalidInput` (400) validation outcomes, never `notFound` or
success, and before any write — exactly when `userId` is
missing/non-numeric/zero or `rating` is missing/non-numeric/zero or lies
outside the closed interval [0.5, 5.0].  On every other input the call
succeeds and appends exactly the one new rating event; in particular the
0.5 increment is not enforced and negative rater ids are accepted (see
the counterexample). -/
theorem c3_validation (s : Store) (newRid ts mid : Nat)
    (uid? : Option Int) (r? : Option ℚ)
    (hmovie : (s.movies.find? (fun m => m.movieId == mid)).isSome = true) :
    ((uid? = none ∨ uid? = some 0 ∨ r? = none ∨ r? = some 0 ∨
        ∃ r, r? = some r ∧ (r < 1/2 ∨ r > 5)) →
      (submitRating s newRid ts (some mid) uid? r?).1 = s
      ∧ (submitRating s newRid ts (some mid) uid? r?).2.isInvalidInput
          = true)
    ∧ ∀ u r, uid? = some u → r? = some r → ¬u = 0 →
        ¬(r < 1/2 ∨ r > 5) →
        (submitRating s newRid ts (some mid) uid? r?).2.isOk = true
        ∧ (submitRating s newRid ts (some mid) uid? r?).1.ratings
            = s.ratings ++
                [({ rid := newRid, userId := u, movieId := mid,
                    rating := r, timestamp := ts } : RatingEvent)] := by
  constructor
  · intro h
    rcases h with h | h | h | h | ⟨r, hr, hrange⟩
    · subst h
      simp [submitRating, SubmitOutcome.isInvalidInput]
    · subst h
      simp [submitRating, SubmitOutcome.isInvalidInput]
    · subst h
      rcases uid? with _ | u
      · simp [submitRating, SubmitOutcome.isInvalidInput]
      · by_cases hu : u = 0 <;>
          simp [submitRating, hu, SubmitOutcome.isInvalidInput]
    · subst h
      rcases uid? with _ | u
      · simp [submitRating, SubmitOutcome.isInvalidInput]
      · by_cases hu : u = 0 <;>
          simp [submitRating, hu, SubmitOutcome.isInvalidInput]
    · subst hr
      rcases uid? with _ | u
      · simp [submitRating, SubmitOutcome.isInvalidInput]
      · by_cases hu : u = 0
        · simp [submitRating, hu, SubmitOutcome.isInvalidInput]
        · by_cases hr0 : r = 0
          · simp [submitRating, hu, hr0, SubmitOutcome.isInvalidInput]
          · rw [submitRating]
            simp only [hu, if_false, hr0, if_pos hrange]
            simp [SubmitOutcome.isInvalidInput]
  · intro u r hu' hr' hu0 hvr
    subst hu'
    subst hr'
    have hr0 : ¬r = 0 := by
      intro h
      subst h
      exact hvr (Or.inl (by norm_num))
    rcases Option.isSome_iff_exists.mp hmovie with ⟨m0, hfind⟩
    rw [submitRating]
    simp only [hu0, hr0, if_false, ite_false, if_neg hvr, hfind]
    simp [SubmitOutcome.isOk]

/-- Witness for `c3_validation`: Scenario D on the existing movie id 1 —
value 5.5 exceeds the interval, the call is rejected as `InvalidInput`
and writes nothing. -/
theorem c3_validation_witness :
    (sc3.movies.find? (fun m => m.movieId == 1)).isSome = true
    ∧ ((submitRating sc3 2 0 (some 1) (some 1) (some (11/2))).1 = sc3
      ∧ (submitRating sc3 2 0 (some 1) (some 1)
          (some (11/2))).2.isInvalidInput = true) := by
  have hm : (sc3.movies.find? (fun m => m.movieId == 1)).isSome = true := by
    decide
  exact ⟨hm, (c3_validation sc3 2 0 1 (some 1) (some (11/2)) hm).1
    (Or.inr (Or.inr (Or.inr (Or.inr
      ⟨11/2, rfl, Or.inr (by norm_num)⟩))))⟩

/-- C8: Scenario A — on an entity whose bound rating values are
[4.0, 5.0, 3.0], a successful submission of 4.5 stores count 4 and
average 4.13 (the mean 4.125 rounded half-up, which on positive values
is round-half-away-from-zero). -/
theorem c8_scenarioA :
    ((submitRating sc8 4 100 (some 1) (some 9) (some (9/2))).1.movies.map
        (fun m => (m.movieId, m.averageRating, m.ratingCount)))
      = [(1, 413/100, 4)]
    ∧ (submitRating sc8 4 100 (some 1) (some 9) (some (9/2))).2
        = .ok (413/100) 4 := by
  constructor
  · norm_num [submitRating, sc8, submissionAggregate, jsRound2, jsRound,
      updateFirstMovie]
  · norm_num [submitRating, sc8, submissionAggregate, jsRound2, jsRound,
      updateFirstMovie]

/-- Writing an aggregate onto a movie document changes no identity key
(record-update form, convenient for rewriting). -/
theorem updateFirstMovie_map_movieId_agg (p : Movie → Bool) (A : ℚ)
    (C : Nat) (l : List Movie) :
    (updateFirstMovie p
        (fun m => { m with averageRating := A, ratingCount := C }) l).map
          (·.movieId)
      = l.map (·.movieId) :=
  updateFirstMovie_map_movieId p
    (fun m => { m with averageRating := A, ratingCount := C })
    (fun _ => rfl) l

/-- C9: on the success path of the submission endpoint, the rating set
read back after the insert contains the event just inserted, so the
returned count — the denominator of the recompute division — is at least
1, and it equals the number of events bound to the movie in the
post-insert store. -/
theorem c9_recompute_set_nonempty (s : Store) (newRid ts mid : Nat)
    (uid? : Option Int) (r? : Option ℚ) (avg : ℚ) (cnt : Nat)
    (hok : (submitRating s newRid ts (some mid) uid? r?).2 = .ok avg cnt) :
    1 ≤ cnt
    ∧ cnt = ((submitRating s newRid ts (some mid) uid? r?).1.ratings.filter
        (fun r => r.movieId == mid)).length := by
  rcases uid? with _ | u
  · simp [submitRating] at hok
  · by_cases hu : u = 0
    · simp [submitRating, hu] at hok
    · rcases r? with _ | v
      · simp [submitRating, hu] at hok
      · by_cases hv0 : v = 0
        · simp [submitRating, hu, hv0] at hok
        · by_cases hvr : v < 1/2 ∨ v > 5
          · rw [submitRating] at hok
            simp only [hu, hv0, if_false, ite_false, if_pos hvr] at hok
            simp at hok
          · rcases hfind : s.movies.find? (fun m => m.movieId == mid)
                with _ | m0
            · rw [submitRating] at hok
              simp only [hu, hv0, if_false, ite_false, if_neg hvr,
                hfind] at hok
              simp at hok
            · rw [submitRating] at hok ⊢
              simp only [hu, hv0, if_false, ite_false, if_neg hvr, hfind,
                SubmitOutcome.ok.injEq] at hok ⊢
              obtain ⟨-, hc⟩ := hok
              subst hc
              constructor
              · simp [submissionAggregate, List.filter_append]
              · simp [submissionAggregate, List.filter_append]

/-- A successful submission re-establishes invariant I1 for the entity
it targets, and preserves distinctness of the movie identity keys and
non-negativity of the stored rating values. -/
theorem submit_ok_establishes (s : Store) (newRid ts mid : Nat)
    (uid? : Option Int) (r? : Option ℚ)
    (hnd : (s.movies.map (·.movieId)).Nodup)
    (hvals : ∀ r ∈ s.ratings, 0 ≤ r.rating)
    (hok : (submitRating s newRid ts (some mid) uid? r?).2.isOk = true) :
    (((submitRating s newRid ts (some mid) uid? r?).1.movies.map
        (·.movieId)).Nodup
      ∧ ∀ r ∈ (submitRating s newRid ts (some mid) uid? r?).1.ratings,
          0 ≤ r.rating)
    ∧ I1 (submitRating s newRid ts (some mid) uid? r?).1 mid := by
  rcases uid? with _ | u
  · simp [submitRating, SubmitOutcome.isOk] at hok
  · by_cases hu : u = 0
    · simp [submitRating, hu, SubmitOutcome.isOk] at hok
    · rcases r? with _ | v
      · simp [submitRating, hu, SubmitOutcome.isOk] at hok
      · by_cases hv0 : v = 0
        · simp [submitRating, hu, hv0, SubmitOutcome.isOk] at hok
        · by_cases hvr : v < 1/2 ∨ v > 5
          · rw [submitRating] at hok
            simp only [hu, hv0, if_false, ite_false, if_pos hvr] at hok
            simp [SubmitOutcome.isOk] at hok
          · rcases hfind : s.movies.find? (fun m => m.movieId == mid)
                with _ | m0
            · rw [submitRating] at hok
              simp only [hu, hv0, if_false, ite_false, if_neg hvr,
                hfind] at hok
              simp [SubmitOutcome.isOk] at hok
            · have hv : (0 : ℚ) ≤ v := by
                push_neg at hvr
                linarith [hvr.1]
              rw [submitRating]
              simp only [hu, hv0, if_false, ite_false, if_neg hvr, hfind]
              have hvals1 : ∀ r ∈ s.ratings ++
                  [({ rid := newRid, userId := u, movieId := mid,
                      rating := v, timestamp := ts } : RatingEvent)],
                  0 ≤ r.rating := by
                intro r hr
                rcases List.mem_append.mp hr with h | h
                · exact hvals r h
                · rcases List.mem_singleton.mp h with rfl
                  exact hv
              refine ⟨⟨?_, hvals1⟩, ?_⟩
              · rw [updateFirstMovie_map_movieId_agg]
                exact hnd
              · unfold I1 ratingValuesOf ratingsOf
                intro m hm hmid
                have hnn : ∀ x ∈ ((s.ratings ++
                    [({ rid := newRid, userId := u, movieId := mid,
                        rating := v, timestamp := ts } : RatingEvent)]).filter
                      (fun r => r.movieId == mid)).map (·.rating), 0 ≤ x := by
                  intro x hx
                  rcases List.mem_map.mp hx with ⟨r, hr, rfl⟩
                  exact hvals1 r (List.mem_of_mem_filter hr)
                have hagg := submissionAggregate_eq_computeAggregate _ hnn
                have hspec := updateFirstMovie_mem_spec mid _ _ s.movies
                  hnd m hm hmid
                rw [hagg] at hspec
                exact hspec

/-- C4: sequential consistency of the submission path — starting from a
store satisfying I1 for entity `mid`, with duplicate-free identity keys
and in-range stored values, any sequence of successful `submitRating`
calls against `mid`, executed without interleaving, leaves the stored
(average, count) pair of `mid` equal to `computeAggregate` over exactly
the rating events bound to `mid`. -/
theorem c4_invariant_sequential (s : Store) (mid : Nat) (calls : List Call)
    (hnd : (s.movies.map (·.movieId)).Nodup)
    (hvals : ∀ r ∈ s.ratings, 0 ≤ r.rating)
    (hI1 : I1 s mid) (hok : allOk mid s calls) :
    I1 (runSubmits mid s calls) mid := by
  induction calls generalizing s with
  | nil => exact hI1
  | cons c cs ih =>
    simp only [allOk] at hok
    obtain ⟨h1, h2⟩ := hok
    have hest := submit_ok_establishes s c.newRid c.ts mid c.userId
      c.rating hnd hvals h1
    simp only [runSubmits]
    exact ih _ hest.1.1 hest.1.2 hest.2 h2

/-- Witness for `c9_recompute_set_nonempty`: a first rating on a movie
with no prior events — the read-back set has exactly the inserted
event. -/
theorem c9_recompute_set_nonempty_witness :
    (submitRating sc3 1 0 (some 1) (some 2) (some 4)).2 = .ok 4 1
    ∧ (1 ≤ 1
      ∧ 1 = ((submitRating sc3 1 0 (some 1) (some 2) (some 4)).1.ratings.filter
          (fun r => r.movieId == 1)).length) := by
  have hok : (submitRating sc3 1 0 (some 1) (some 2) (some 4)).2 = .ok 4 1 := by
    norm_num [submitRating, sc3, submissionAggregate, jsRound2, jsRound,
      updateFirstMovie]
  exact ⟨hok, c9_recompute_set_nonempty sc3 1 0 1 (some 2) (some 4) 4 1 hok⟩

/-- Witness for `c4_invariant_sequential`: Scenario A run as a
single-call sequence against the consistent store `sc8`. -/
theorem c4_invariant_sequential_witness :
    ((sc8.movies.map (·.movieId)).Nodup
      ∧ (∀ r ∈ sc8.ratings, 0 ≤ r.rating)
      ∧ I1 sc8 1 ∧ allOk 1 sc8 c4calls)
    ∧ I1 (runSubmits 1 sc8 c4calls) 1 := by
  have h1 : (sc8.movies.map (·.movieId)).Nodup := by decide
  have h2 : ∀ r ∈ sc8.ratings, 0 ≤ r.rating := by
    simp only [sc8, List.mem_cons, List.not_mem_nil, or_false]
    rintro r (rfl | rfl | rfl) <;> norm_num
  have h3 : I1 sc8 1 := by
    unfold I1
    intro m hm hmid
    simp only [sc8, List.mem_cons, List.not_mem_nil, or_false] at hm
    subst hm
    constructor <;>
      norm_num [computeAggregate, roundHalfAwayFromZero2, ratingValuesOf,
        ratingsOf, sc8]
  have h4 : allOk 1 sc8 c4calls := by
    simp only [c4calls, allOk]
    refine ⟨?_, trivial⟩
    norm_num [submitRating, sc8, submissionAggregate, jsRound2, jsRound,
      updateFirstMovie, SubmitOutcome.isOk]
  exact ⟨⟨h1, h2, h3, h4⟩, c4_invariant_sequential sc8 1 c4calls h1 h2 h3 h4⟩

end Cymbalflix
